import Mathlib

/-!
# Verification of the caps2fun orchestration layer

A shallow embedding, in Lean 4, of the design-variable bookkeeping, input/output
file handling, gradient chain-rule accumulation and pipeline sequencing of the
caps2fun repository (examples/naca3/runF2F.py, examples/nacaMulti/optimization.py,
src/capsManager/tacs/design_variable.py).

Python dictionaries are embedded as association lists of string keys (Python
dicts preserve insertion order, and assignment replaces in place or appends at
the end).  Python floats are embedded as rationals.  Fallible operations
(file opening, list/dict indexing, float parsing, assertions) return
`Except`/`Option` values; a `.error` models an uncaught Python exception.
External tools (ESP/CAPS AIMs, FUN3D, TACS, pointwise, MPI) are opaque: their
outputs enter the model as parameters, and the calls made to them are recorded
as events.
-/

namespace Caps2Fun

/-- A value stored in one of the configuration dictionaries: either a Python
string or a Python float (embedded as a rational). -/
inductive PyVal where
  | str (s : String)
  | num (q : ℚ)
  deriving DecidableEq, Repr

/-- A Python dict with string keys, embedded as an insertion-ordered
association list (no duplicate keys arise in the embedded code). -/
abbrev PyDict := List (String × PyVal)

/-- `d[k]` read access on a Python dict: the entry with key `k`, if present. -/
def dictGet {α : Type} : List (String × α) → String → Option α
  | [], _ => none
  | p :: t, k => if p.1 == k then some p.2 else dictGet t k

/-- `d[k] = v` on a Python dict: replace the entry in place if the key is
present, otherwise append it at the end (Python insertion order). -/
def dictSet {α : Type} : List (String × α) → String → α → List (String × α)
  | [], k, v => [(k, v)]
  | p :: t, k, v => if p.1 == k then (k, v) :: t else p :: dictSet t k v

theorem dictGet_dictSet_self {α : Type} (d : List (String × α)) (k : String) (v : α) :
    dictGet (dictSet d k v) k = some v := by
  induction d with
  | nil => simp [dictGet, dictSet]
  | cons p t ih =>
    by_cases hp : p.1 == k
    · simp [dictGet, dictSet, hp]
    · simp [dictGet, dictSet, hp, ih]

theorem dictGet_dictSet_ne {α : Type} (d : List (String × α)) (k k' : String) (v : α)
    (h : k' ≠ k) : dictGet (dictSet d k v) k' = dictGet d k' := by
  have hk : ¬(k == k') = true := by simpa using fun hh => h hh.symm
  induction d with
  | nil => simp [dictGet, dictSet, hk]
  | cons p t ih =>
    by_cases hp : p.1 == k
    · have hpk : p.1 = k := by simpa using hp
      have hp' : ¬(p.1 == k') = true := by rw [hpk]; exact hk
      simp [dictGet, dictSet, hp, hk, hp']
    · by_cases hq : p.1 == k'
      · simp [dictGet, dictSet, hp, hq]
      · simp [dictGet, dictSet, hp, hq, ih]

/-- The keys of a dict, in order. -/
def dictKeys {α : Type} (d : List (String × α)) : List String :=
  d.map (fun p => p.1)

/-- A design-variable record of the orchestration layer: one entry of
`self.DVdict` (runF2F.py `readInput` / optimization.py driver script).  The
four fields are exactly the four keys stored in the Python dict; `tempDict`
below recovers the dict itself. -/
structure DVRecord where
  name : String
  dvType : String
  capsGroup : String
  value : ℚ
  deriving DecidableEq, Repr

/-- runF2F.py lines 239-242: the Python dict built for one design variable,
`{"name": name, "type": dvType, "capsGroup": capsGroup, "value": value}`. -/
def tempDict (name dvType capsGroup : String) (value : ℚ) : PyDict :=
  [("name", .str name), ("type", .str dvType),
   ("capsGroup", .str capsGroup), ("value", .num value)]

/-- runF2F.py lines 694-701 / optimization.py lines 714-721,
`makeThicknessDV(capsGroup, thickness)`: the `Design_Variable` dictionary of a
thickness variable.  The caps group is passed through unchanged (it can come
from `DV["capsGroup"]` or from `DVdict[dvname]["groupName"]`, hence `PyVal`). -/
def makeThicknessDV (capsGroup : PyVal) (thickness : ℚ) : PyDict :=
  [("groupName", capsGroup),
   ("initialValue", .num thickness),
   ("lowerBound", .num (thickness * 0.5)),
   ("upperBound", .num (thickness * 1.5)),
   ("maxDelta", .num (thickness * 0.1))]

/-- runF2F.py lines 703-710 / optimization.py lines 723-730,
`makeThicknessDVR(DVname)`: the `Design_Variable_Relation` dictionary of a
thickness variable. -/
def makeThicknessDVR (DVname : String) : PyDict :=
  [("variableType", .str "Property"),
   ("fieldName", .str "T"),
   ("constantCoeff", .num 0.0),
   ("groupName", .str DVname),
   ("linearCoeff", .num 1.0)]

/-- A material record (capsManager).  Its internals are irrelevant to the
embedded code; only identity matters. -/
structure Material where
  name : String
  deriving DecidableEq, Repr

/-- Modelled from the spec: `ShellProperty` lives in
src/capsManager/tacs/property.py, which is not among the provided sources;
`design_variable.py` constructs it with the keyword arguments `caps_group`,
`material`, `membrane_thickness` and `bending_inertia`, so it is embedded as
the record of those constructor arguments. -/
structure ShellProperty where
  caps_group : String
  material : Material
  membrane_thickness : ℚ
  bending_inertia : ℚ
  deriving DecidableEq, Repr

/-- design_variable.py lines 39-44, `ThicknessVariable.__init__`: the material
may be `None` (embedded as `Option`). -/
structure ThicknessVariable where
  name : String
  caps_group : String
  value : ℚ
  material : Option Material
  bending_boost : ℚ := 1.0
  deriving DecidableEq, Repr

/-- design_variable.py lines 62-71, `ThicknessVariable.DV_dictionary`. -/
def ThicknessVariable.DV_dictionary (v : ThicknessVariable) : PyDict :=
  [("groupName", .str v.caps_group),
   ("initialValue", .num v.value),
   ("lowerBound", .num (v.value * 0.5)),
   ("upperBound", .num (v.value * 1.5)),
   ("maxDelta", .num (v.value * 0.1))]

/-- design_variable.py lines 73-82, `ThicknessVariable.DVR_dictionary`. -/
def ThicknessVariable.DVR_dictionary (v : ThicknessVariable) : PyDict :=
  [("variableType", .str "Property"),
   ("fieldName", .str "T"),
   ("constantCoeff", .num 0.0),
   ("groupName", .str v.name),
   ("linearCoeff", .num 1.0)]

/-- design_variable.py lines 84-86, `ThicknessVariable.has_material`. -/
def ThicknessVariable.has_material (v : ThicknessVariable) : Bool :=
  v.material.isSome

/-- design_variable.py lines 88-91, `ThicknessVariable.shell_property`:
`assert(self._material is not None)` then construct the `ShellProperty`.
A failed assertion is embedded as `none`. -/
def ThicknessVariable.shell_property (v : ThicknessVariable) : Option ShellProperty :=
  match v.material with
  | none => none
  | some m =>
    some { caps_group := v.caps_group, material := m,
           membrane_thickness := v.value, bending_inertia := v.bending_boost }

/-- **C5.** For every caps group `g` and thickness `t`, `makeThicknessDV` yields a
dictionary with exactly the keys groupName, initialValue, lowerBound, upperBound,
maxDelta, with groupName = g, initialValue = t, lowerBound = 0.5·t,
upperBound = 1.5·t, maxDelta = 0.1·t, and it agrees with
`ThicknessVariable.DV_dictionary`; for every name `n`, `makeThicknessDVR` yields a
dictionary with exactly the keys variableType, fieldName, constantCoeff, groupName,
linearCoeff, with constantCoeff = 0.0 and linearCoeff = 1.0 (no dependence on any
thickness value), and it agrees with `ThicknessVariable.DVR_dictionary`. -/
theorem makeThicknessDV_DVR_spec (g : String) (t : ℚ) (n : String)
    (v : ThicknessVariable) :
    dictKeys (makeThicknessDV (.str g) t)
      = ["groupName", "initialValue", "lowerBound", "upperBound", "maxDelta"]
    ∧ dictGet (makeThicknessDV (.str g) t) "groupName" = some (.str g)
    ∧ dictGet (makeThicknessDV (.str g) t) "initialValue" = some (.num t)
    ∧ dictGet (makeThicknessDV (.str g) t) "lowerBound" = some (.num (t * 0.5))
    ∧ dictGet (makeThicknessDV (.str g) t) "upperBound" = some (.num (t * 1.5))
    ∧ dictGet (makeThicknessDV (.str g) t) "maxDelta" = some (.num (t * 0.1))
    ∧ v.DV_dictionary = makeThicknessDV (.str v.caps_group) v.value
    ∧ dictKeys (makeThicknessDVR n)
      = ["variableType", "fieldName", "constantCoeff", "groupName", "linearCoeff"]
    ∧ dictGet (makeThicknessDVR n) "constantCoeff" = some (.num 0.0)
    ∧ dictGet (makeThicknessDVR n) "linearCoeff" = some (.num 1.0)
    ∧ dictGet (makeThicknessDVR n) "groupName" = some (.str n)
    ∧ v.DVR_dictionary = makeThicknessDVR v.name := by
  refine ⟨rfl, ?_, ?_, ?_, ?_, ?_, rfl, rfl, ?_, ?_, ?_, rfl⟩ <;>
    simp [dictGet, makeThicknessDV, makeThicknessDVR, List.find?]

/-- **C9.** `ThicknessVariable.shell_property` never fails its assertion when the
material is non-None (`has_material = true`); it then returns the `ShellProperty`
built from the variable's caps group, material, value as membrane thickness and
bending boost as bending inertia. -/
theorem shell_property_of_has_material (v : ThicknessVariable)
    (h : v.has_material = true) :
    v.shell_property.isSome = true
    ∧ ∃ m, v.material = some m
        ∧ v.shell_property
          = some { caps_group := v.caps_group, material := m,
                   membrane_thickness := v.value, bending_inertia := v.bending_boost } := by
  unfold ThicknessVariable.has_material at h
  cases hm : v.material with
  | none => rw [hm] at h; simp at h
  | some m =>
    refine ⟨?_, m, rfl, ?_⟩ <;> simp [ThicknessVariable.shell_property, hm]

/-- Witness for `shell_property_of_has_material`: a concrete thickness variable
with a material. -/
theorem shell_property_of_has_material_witness :
    (ThicknessVariable.mk "thick1" "rib" 0.01 (some ⟨"madeupium"⟩) 1.0).shell_property.isSome
      = true
    ∧ ∃ m, (ThicknessVariable.mk "thick1" "rib" 0.01 (some ⟨"madeupium"⟩) 1.0).material = some m
        ∧ (ThicknessVariable.mk "thick1" "rib" 0.01 (some ⟨"madeupium"⟩) 1.0).shell_property
          = some { caps_group := "rib", material := m,
                   membrane_thickness := 0.01, bending_inertia := 1.0 } :=
  shell_property_of_has_material
    (ThicknessVariable.mk "thick1" "rib" 0.01 (some ⟨"madeupium"⟩) 1.0) (by decide)

/-! ## Shape-gradient chain-rule accumulation (runF2F.py lines 846-986)

`self.shapeGrad` is a numpy array of shape `(nfunc, nshapeDV)`; in the
accumulation loops it is only ever read and written within those bounds, so it
is embedded as a total function `ℕ → ℕ → ℚ` together with the dimension
arguments.  The tacsAim and fun3dAim `dynout[funcKey].deriv(dvname)` oracles
(available after `postAnalysis`) are parameters `String → String → ℚ`. -/

/-- The gradient array `self.shapeGrad`. -/
abbrev Grad := ℕ → ℕ → ℚ

/-- A single in-bounds numpy assignment `g[i, j] = q`. -/
def gradUpdate (g : Grad) (i j : ℕ) (q : ℚ) : Grad :=
  fun i' j' => if i' = i ∧ j' = j then q else g i' j'

/-- runF2F.py lines 913-920 / 976-983, the inner loop of
`applyStructMeshSens` / `applyAeroMeshSens` for a fixed `funcInd`:
`for DV in self.DVdict: if DV["type"] == "shape":
  self.shapeGrad[funcInd, dvct] += deriv; dvct += 1`. -/
def sensDVLoop (deriv : String → String → ℚ) (funcInd : ℕ) :
    List DVRecord → ℕ → Grad → Grad
  | [], _, g => g
  | DV :: rest, dvct, g =>
    if DV.dvType == "shape" then
      sensDVLoop deriv funcInd rest (dvct + 1)
        (gradUpdate g funcInd dvct
          (g funcInd dvct + deriv ("func#" ++ toString funcInd) DV.name))
    else
      sensDVLoop deriv funcInd rest dvct g

/-- The outer loop `for funcInd in range(self.nfunc)` of
`applyStructMeshSens` / `applyAeroMeshSens` around `sensDVLoop`. -/
def applyMeshSens (deriv : String → String → ℚ) (DVlist : List DVRecord)
    (nfunc : ℕ) (g : Grad) : Grad :=
  (List.range nfunc).foldl (fun g funcInd => sensDVLoop deriv funcInd DVlist 0 g) g

/-- runF2F.py lines 861-871, `initShapeGrad`:
`self.shapeGrad = np.zeros((self.nfunc, self.nshapeDV))`. -/
def initShapeGrad : Grad := fun _ _ => 0

/-- runF2F.py lines 864-867: the count of shape design variables
(`self.nshapeDV`). -/
def nshapeDV (DVlist : List DVRecord) : ℕ :=
  (DVlist.filter (fun DV => DV.dvType == "shape")).length

/-- The names of the shape design variables, in `DVdict` order; column `d` of
the shape gradient belongs to `(shapeNames DVlist).getD d`. -/
def shapeNames (DVlist : List DVRecord) : List String :=
  (DVlist.filter (fun DV => DV.dvType == "shape")).map (fun DV => DV.name)

/-- runF2F.py lines 846-859, `computeShapeDerivatives` (root process):
zero the gradient, add the tacsAim dynout contribution
(`applyStructMeshSens`), then add the fun3dAim dynout contribution
(`applyAeroMeshSens`). -/
def computeShapeDerivatives (tacsDeriv fun3dDeriv : String → String → ℚ)
    (DVlist : List DVRecord) (nfunc : ℕ) : Grad :=
  applyMeshSens fun3dDeriv DVlist nfunc
    (applyMeshSens tacsDeriv DVlist nfunc initShapeGrad)

theorem shapeNames_length (DVlist : List DVRecord) :
    (shapeNames DVlist).length = nshapeDV DVlist := by
  simp [shapeNames, nshapeDV]

/-- The inner accumulation loop restricted to the shape-variable names it
actually visits (non-shape entries are skipped without incrementing `dvct`). -/
def namesLoop (deriv : String → String → ℚ) (f : ℕ) :
    List String → ℕ → Grad → Grad
  | [], _, g => g
  | n :: ns, c, g =>
    namesLoop deriv f ns (c + 1)
      (gradUpdate g f c (g f c + deriv ("func#" ++ toString f) n))

theorem sensDVLoop_eq_namesLoop (deriv : String → String → ℚ) (f : ℕ) :
    ∀ (l : List DVRecord) (c : ℕ) (g : Grad),
      sensDVLoop deriv f l c g = namesLoop deriv f (shapeNames l) c g := by
  intro l
  induction l with
  | nil => intro c g; rfl
  | cons DV rest ih =>
    intro c g
    by_cases hty : DV.dvType == "shape"
    · have hnames : shapeNames (DV :: rest) = DV.name :: shapeNames rest := by
        simp [shapeNames, List.filter, hty]
      rw [hnames]
      simp only [sensDVLoop, hty, if_true, namesLoop, ih]
    · have hnames : shapeNames (DV :: rest) = shapeNames rest := by
        simp [shapeNames, List.filter, hty]
      rw [hnames]
      simp [sensDVLoop, hty, ih]

theorem namesLoop_apply (deriv : String → String → ℚ) (f : ℕ) :
    ∀ (ns : List String) (c : ℕ) (g : Grad) (f' d : ℕ),
      namesLoop deriv f ns c g f' d =
        if f' = f ∧ c ≤ d ∧ d < c + ns.length then
          g f' d + deriv ("func#" ++ toString f) (ns.getD (d - c) "")
        else g f' d := by
  intro ns
  induction ns with
  | nil =>
    intro c g f' d
    rw [namesLoop, if_neg]
    rintro ⟨-, h2, h3⟩
    simp only [List.length_nil] at h3
    omega
  | cons n ns ih =>
    intro c g f' d
    have hlen : (n :: ns).length = ns.length + 1 := List.length_cons n ns
    rw [namesLoop, ih]
    by_cases hf : f' = f
    · by_cases hd1 : c + 1 ≤ d ∧ d < c + 1 + ns.length
      · rw [if_pos ⟨hf, hd1.1, hd1.2⟩, if_pos ⟨hf, by omega, by omega⟩]
        have hdc : d ≠ c := by omega
        have hupd : gradUpdate g f c (g f c + deriv ("func#" ++ toString f) n) f' d
            = g f' d := by
          simp [gradUpdate, hdc]
        rw [hupd]
        have hgetD : (n :: ns).getD (d - c) "" = ns.getD (d - (c + 1)) "" := by
          have hsub : d - c = (d - (c + 1)) + 1 := by omega
          rw [hsub]
          simp [List.getD]
        rw [hgetD]
      · by_cases hdc : d = c
        · rw [if_neg (fun h => hd1 ⟨h.2.1, h.2.2⟩), if_pos ⟨hf, by omega, by omega⟩]
          have h0 : d - c = 0 := by omega
          rw [h0]
          have hupd : gradUpdate g f c (g f c + deriv ("func#" ++ toString f) n) f' d
              = g f c + deriv ("func#" ++ toString f) n := by
            simp [gradUpdate, hf, hdc]
          rw [hupd, hf, hdc]
          rfl
        · rw [if_neg (fun h => hd1 ⟨h.2.1, h.2.2⟩),
            if_neg (by
              rintro ⟨-, h2, h3⟩
              have h4 : c + 1 ≤ d := by omega
              exact hd1 ⟨h4, by omega⟩)]
          simp [gradUpdate, hdc]
    · rw [if_neg (fun h => hf h.1), if_neg (fun h => hf h.1)]
      simp [gradUpdate, hf]

/-- Characterization of the inner accumulation loop: starting at column offset
`c`, it adds the derivative of the `(d - c)`-th shape variable to row
`funcInd`, column `d`, for `c ≤ d < c + nshape`, and leaves every other cell
unchanged. -/
theorem sensDVLoop_apply (deriv : String → String → ℚ) (f : ℕ)
    (l : List DVRecord) (c : ℕ) (g : Grad) (f' d : ℕ) :
    sensDVLoop deriv f l c g f' d =
      if f' = f ∧ c ≤ d ∧ d < c + (shapeNames l).length then
        g f' d + deriv ("func#" ++ toString f) ((shapeNames l).getD (d - c) "")
      else g f' d := by
  rw [sensDVLoop_eq_namesLoop, namesLoop_apply]

/-- The inner loop touches only its own row. -/
theorem sensDVLoop_other_row (deriv : String → String → ℚ) (f : ℕ)
    (l : List DVRecord) (c : ℕ) (g : Grad) (f' d : ℕ) (h : f' ≠ f) :
    sensDVLoop deriv f l c g f' d = g f' d := by
  rw [sensDVLoop_apply]
  simp [h]

/-- Rows at or beyond `nfunc` are untouched by the outer loop. -/
theorem applyMeshSens_frame (deriv : String → String → ℚ) (DVlist : List DVRecord) :
    ∀ (nfunc : ℕ) (g : Grad) (f d : ℕ), nfunc ≤ f →
      applyMeshSens deriv DVlist nfunc g f d = g f d := by
  intro nfunc
  induction nfunc with
  | zero => intro g f d _; simp [applyMeshSens]
  | succ n ih =>
    intro g f d hf
    unfold applyMeshSens at *
    rw [List.range_succ, List.foldl_append]
    simp only [List.foldl_cons, List.foldl_nil]
    rw [sensDVLoop_other_row _ _ _ _ _ _ _ (by omega)]
    exact ih g f d (by omega)

/-- Each in-range row of the output of `applyMeshSens` is the input row plus the
dynout derivative of the matching shape variable. -/
theorem applyMeshSens_apply (deriv : String → String → ℚ) (DVlist : List DVRecord) :
    ∀ (nfunc : ℕ) (g : Grad) (f d : ℕ), f < nfunc →
      applyMeshSens deriv DVlist nfunc g f d =
        if d < (shapeNames DVlist).length then
          g f d + deriv ("func#" ++ toString f) ((shapeNames DVlist).getD d "")
        else g f d := by
  intro nfunc
  induction nfunc with
  | zero => intro g f d hf; omega
  | succ n ih =>
    intro g f d hf
    unfold applyMeshSens at *
    rw [List.range_succ, List.foldl_append]
    simp only [List.foldl_cons, List.foldl_nil]
    by_cases hfn : f = n
    · subst hfn
      rw [sensDVLoop_apply]
      have hbase : (List.range f).foldl
          (fun g funcInd => sensDVLoop deriv funcInd DVlist 0 g) g f d = g f d :=
        applyMeshSens_frame deriv DVlist f g f d (le_refl f)
      by_cases hd : d < (shapeNames DVlist).length
      · have hcond : f = f ∧ 0 ≤ d ∧ d < 0 + (shapeNames DVlist).length :=
          ⟨rfl, Nat.zero_le d, by omega⟩
        rw [if_pos hcond, hbase, Nat.sub_zero, if_pos hd]
      · have hcond : ¬(f = f ∧ 0 ≤ d ∧ d < 0 + (shapeNames DVlist).length) := by
          rintro ⟨-, -, h3⟩
          omega
        rw [if_neg hcond, hbase, if_neg hd]
    · rw [sensDVLoop_other_row _ _ _ _ _ _ _ hfn]
      exact ih g f d (by omega)

/-- **C1.** For every function index `f < nfunc` and every shape-DV column
`d < nshapeDV`, the shape gradient returned by `computeShapeDerivatives` is the
sum of exactly two contributions: the tacsAim dynout derivative plus the
fun3dAim dynout derivative of function `f` with respect to the `d`-th shape
variable of `DVdict` (columns ordered by the order of shape entries in
`DVdict`), accumulated into an array initialized to zero. -/
theorem computeShapeDerivatives_chain_rule (tacsDeriv fun3dDeriv : String → String → ℚ)
    (DVlist : List DVRecord) (nfunc f d : ℕ)
    (hf : f < nfunc) (hd : d < nshapeDV DVlist) :
    computeShapeDerivatives tacsDeriv fun3dDeriv DVlist nfunc f d =
      tacsDeriv ("func#" ++ toString f) ((shapeNames DVlist).getD d "")
        + fun3dDeriv ("func#" ++ toString f) ((shapeNames DVlist).getD d "") := by
  have hd' : d < (shapeNames DVlist).length := by rw [shapeNames_length]; exact hd
  unfold computeShapeDerivatives
  rw [applyMeshSens_apply _ _ _ _ _ _ hf, if_pos hd',
    applyMeshSens_apply _ _ _ _ _ _ hf, if_pos hd']
  simp [initShapeGrad]

/-- Concrete tacsAim dynout oracle used by the witness. -/
def tacsDerivEx : String → String → ℚ :=
  fun _ n => if n == "aspect" then 5 else 2

/-- Concrete fun3dAim dynout oracle used by the witness. -/
def fun3dDerivEx : String → String → ℚ :=
  fun _ _ => 7

/-- Concrete DV list used by the witnesses: two shape variables and one
thickness variable, as in the naca3 example. -/
def DVlistEx : List DVRecord :=
  [⟨"area", "shape", "", 0⟩, ⟨"thick1", "struct", "rib", 0.01⟩,
   ⟨"aspect", "shape", "", 0⟩]

/-- Witness for `computeShapeDerivatives_chain_rule`: one function, column 1
is the second shape variable ("aspect"), and its gradient is
`tacsDeriv + fun3dDeriv = 5 + 7`. -/
theorem computeShapeDerivatives_chain_rule_witness :
    computeShapeDerivatives tacsDerivEx fun3dDerivEx DVlistEx 1 0 1 =
      tacsDerivEx ("func#" ++ toString 0) ((shapeNames DVlistEx).getD 1 "")
        + fun3dDerivEx ("func#" ++ toString 0) ((shapeNames DVlistEx).getD 1 "") :=
  computeShapeDerivatives_chain_rule tacsDerivEx fun3dDerivEx DVlistEx 1 0 1
    (by decide) (by decide)

/-! ## readInput (runF2F.py lines 209-248) and the funtofem.in format -/

/-- Helper for `splitComma`: scan the characters, flushing the accumulator at
each comma. -/
def splitCommaAux : List Char → List Char → List String
  | [], acc => [String.mk acc.reverse]
  | c :: cs, acc =>
    if c = ',' then String.mk acc.reverse :: splitCommaAux cs []
    else splitCommaAux cs (c :: acc)

/-- Python `line.split(",")`: split on every comma, keeping empty fields.
(Defined by structural recursion on the character list so that concrete
instances evaluate inside the kernel.) -/
def splitComma (s : String) : List String :=
  splitCommaAux s.data []

/-- The state of the `readInput` loop on the root process: the records
accumulated in `self.DVdict`, and the Python function-level locals `capsGroup`
and `value`, which persist across loop iterations and are unbound (`none`)
before their first assignment — reading them then raises `NameError`. -/
structure ReadState where
  records : List PyDict
  capsGroup : Option String
  value : Option ℚ
  deriving Repr

/-- One iteration of the `for line in lines` loop of `readInput` (runF2F.py
lines 224-243).  `pf` is the Python `float` constructor (`none` models
`ValueError`); `line` keeps its trailing newline, as `readlines` produces it.
A line of length at most 1 is skipped; otherwise the line is split on commas,
`name = parts[0]`, `dvType = parts[1]`, and the shape/struct branches read the
remaining fields; for any other type the record is built from the stale locals
`capsGroup` and `value` (a `NameError` if they were never assigned). -/
def readLine (pf : String → Option ℚ) (st : ReadState) (line : String) :
    Except String ReadState :=
  if line.length > 1 then
    let parts := splitComma line
    let name := parts.getD 0 ""
    match parts[1]? with
    | none => .error "IndexError"
    | some dvType =>
      if dvType == "shape" then
        match parts[2]? with
        | none => .error "IndexError"
        | some s =>
          match pf s with
          | none => .error "ValueError"
          | some value =>
            .ok { records := st.records ++ [tempDict name dvType "" value],
                  capsGroup := some "", value := some value }
      else if dvType == "struct" then
        match parts[2]? with
        | none => .error "IndexError"
        | some capsGroup =>
          match parts[3]? with
          | none => .error "IndexError"
          | some s =>
            match pf s with
            | none => .error "ValueError"
            | some value =>
              .ok { records := st.records ++ [tempDict name dvType capsGroup value],
                    capsGroup := some capsGroup, value := some value }
      else
        match st.capsGroup with
        | none => .error "NameError"
        | some capsGroup =>
          match st.value with
          | none => .error "NameError"
          | some value =>
            .ok { records := st.records ++ [tempDict name dvType capsGroup value],
                  capsGroup := some capsGroup, value := some value }
  else .ok st

/-- The `for line in lines` loop.  On an exception the state at the point of
failure is returned together with the exception (the records already appended
to `self.DVdict` stay). -/
def readLines (pf : String → Option ℚ) :
    List String → ReadState → ReadState × Option String
  | [], st => (st, none)
  | l :: rest, st =>
    match readLine pf st l with
    | .error e => (st, some e)
    | .ok st' => readLines pf rest st'

/-- runF2F.py lines 209-248, `readInput` on the root process.  `file?` is the
content of `funtofem/funtofem.in` as its list of lines (`readlines`), or
`none` when the file is absent, in which case `open` raises
`FileNotFoundError`.  Result: the value of `self.DVdict` at the moment the
method returns or the exception escapes (it is set to `None` before the file
is opened), paired with the escaped exception, if any. -/
def readInput (pf : String → Option ℚ) (file? : Option (List String)) :
    Option (List PyDict) × Option String :=
  match file? with
  | none => (none, some "FileNotFoundError")
  | some lines =>
    let res := readLines pf lines { records := [], capsGroup := none, value := none }
    (some res.1.records, res.2)

/-- The record claim C4 describes for one input line, built from the claim's
own words: for a line of length over 1, the first comma-separated field is the
name and the second the type; a shape line takes its value from the third
field (parsed as a float) and an empty caps group; a struct line takes its
caps group from the third field and its value from the fourth; a line of
length at most 1 yields no record. -/
def specRecord (pf : String → Option ℚ) (line : String) : Option PyDict :=
  if line.length > 1 then
    let parts := splitComma line
    let name := parts.getD 0 ""
    match parts[1]? with
    | none => none
    | some dvType =>
      if dvType == "shape" then
        (parts[2]?.bind pf).map (fun value =>
          [("name", .str name), ("type", .str dvType),
           ("capsGroup", .str ""), ("value", .num value)])
      else if dvType == "struct" then
        match parts[2]?, parts[3]?.bind pf with
        | some capsGroup, some value =>
          some [("name", .str name), ("type", .str dvType),
                ("capsGroup", .str capsGroup), ("value", .num value)]
        | _, _ => none
      else none
  else none

/-- A line the amended claim C4 quantifies over: either of length at most 1,
or a parseable shape/struct line. -/
def wellFormedLine (pf : String → Option ℚ) (line : String) : Bool :=
  if line.length > 1 then (specRecord pf line).isSome else true

theorem readLine_short (pf : String → Option ℚ) (st : ReadState) (line : String)
    (h : ¬line.length > 1) : readLine pf st line = .ok st := by
  unfold readLine
  rw [if_neg h]

theorem readLine_of_specRecord (pf : String → Option ℚ) (st : ReadState)
    (line : String) (r : PyDict) (h : specRecord pf line = some r) :
    ∃ cg v, readLine pf st line =
      .ok { records := st.records ++ [r], capsGroup := some cg, value := some v } := by
  by_cases hlen : line.length > 1
  · cases hp1 : (splitComma line)[1]? with
    | none => simp [specRecord, hlen, hp1] at h
    | some dvType =>
      by_cases hsh : dvType == "shape"
      · cases hp2 : (splitComma line)[2]? with
        | none => simp [specRecord, hlen, hp1, hsh, hp2] at h
        | some s =>
          cases hv : pf s with
          | none => simp [specRecord, hlen, hp1, hsh, hp2, hv] at h
          | some value =>
            simp [specRecord, hlen, hp1, hsh, hp2, hv] at h
            subst h
            refine ⟨"", value, ?_⟩
            simp [readLine, hlen, hp1, hsh, hp2, hv, tempDict]
      · by_cases hst : dvType == "struct"
        · cases hp2 : (splitComma line)[2]? with
          | none => simp [specRecord, hlen, hp1, hsh, hst, hp2] at h
          | some capsGroup =>
            cases hp3 : (splitComma line)[3]? with
            | none => simp [specRecord, hlen, hp1, hsh, hst, hp2, hp3] at h
            | some s =>
              cases hv : pf s with
              | none => simp [specRecord, hlen, hp1, hsh, hst, hp2, hp3, hv] at h
              | some value =>
                simp [specRecord, hlen, hp1, hsh, hst, hp2, hp3, hv] at h
                subst h
                refine ⟨capsGroup, value, ?_⟩
                simp [readLine, hlen, hp1, hsh, hst, hp2, hp3, hv, tempDict]
        · simp [specRecord, hlen, hp1, hsh, hst] at h
  · simp [specRecord, hlen] at h

theorem readLines_wellformed (pf : String → Option ℚ) :
    ∀ (lines : List String) (st : ReadState),
      (∀ l ∈ lines, wellFormedLine pf l = true) →
      (readLines pf lines st).1.records
          = st.records ++ lines.filterMap (specRecord pf)
        ∧ (readLines pf lines st).2 = none := by
  intro lines
  induction lines with
  | nil => intro st _; simp [readLines]
  | cons l rest ih =>
    intro st h
    have hl : wellFormedLine pf l = true := h l (List.mem_cons_self l rest)
    have hrest : ∀ l' ∈ rest, wellFormedLine pf l' = true :=
      fun l' hm => h l' (List.mem_cons_of_mem l hm)
    by_cases hlen : l.length > 1
    · have hsome : (specRecord pf l).isSome = true := by
        unfold wellFormedLine at hl
        rwa [if_pos hlen] at hl
      cases hsr : specRecord pf l with
      | none => rw [hsr] at hsome; simp at hsome
      | some r =>
        obtain ⟨cg, v, hok⟩ := readLine_of_specRecord pf st l r hsr
        have hrec := ih { records := st.records ++ [r], capsGroup := some cg, value := some v }
          hrest
        rw [readLines, hok]
        rw [hrec.1, List.filterMap_cons, hsr]
        exact ⟨by simp, hrec.2⟩
    · have hok := readLine_short pf st l hlen
      have hnone : specRecord pf l = none := by
        unfold specRecord
        rw [if_neg hlen]
      have hrec := ih st hrest
      rw [readLines, hok]
      rw [hrec.1, List.filterMap_cons, hnone]
      exact ⟨rfl, hrec.2⟩

/-- **C4 (amended).** For every line of funtofem.in of length over 1 whose
second comma-separated field is "shape" (with a parseable third field) or
"struct" (with a third field caps group and a parseable fourth field),
`readInput` on the root process appends exactly one design-variable record —
a dictionary with exactly the keys name, type, capsGroup, value as the claim
describes — in file order, and lines of length at most 1 produce no record
(first conjunct, stated for files all of whose length-over-1 lines are of
those two forms, since an exception aborts the loop).  A line of length over 1
of any other type does not get the claimed record: the `tempDict` construction
sits outside the shape/struct branches, so when the locals `capsGroup` and
`value` are still bound from an earlier shape/struct line, one record is
appended from those stale values together with the line's own name and type
(second conjunct), and when they are unbound, `NameError` is raised and
nothing is appended (third conjunct; `readInput_nonshape_line_fails` refutes
the original unrestricted claim there). -/
theorem readInput_line_behavior (pf : String → Option ℚ) (lines : List String)
    (st : ReadState) (line : String) (cg : String) (v : ℚ) (t : String)
    (hwf : ∀ l ∈ lines, wellFormedLine pf l = true)
    (hlen : line.length > 1) (ht : (splitComma line)[1]? = some t)
    (hsh : t ≠ "shape") (hst : t ≠ "struct") :
    readInput pf (some lines) = (some (lines.filterMap (specRecord pf)), none)
    ∧ readLine pf { records := st.records, capsGroup := some cg, value := some v } line
        = .ok { records := st.records
                  ++ [tempDict ((splitComma line).getD 0 "") t cg v],
                capsGroup := some cg, value := some v }
    ∧ readLine pf { records := st.records, capsGroup := none, value := st.value } line
        = .error "NameError" := by
  have hbsh : (t == "shape") = false := by simp [hsh]
  have hbst : (t == "struct") = false := by simp [hst]
  refine ⟨?_, ?_, ?_⟩
  · have hrec := readLines_wellformed pf lines
      { records := [], capsGroup := none, value := none } hwf
    unfold readInput
    rw [Prod.ext_iff]
    refine ⟨?_, hrec.2⟩
    simp only [hrec.1, List.nil_append]
  · simp [readLine, hlen, ht, hbsh, hbst]
  · simp [readLine, hlen, ht, hbsh, hbst]

/-- A concrete Python `float` for the C4 witness. -/
def pfC4 : String → Option ℚ :=
  fun s => if s == "100.0\n" then some 100
    else if s == "0.01\n" then some 0.01 else none

/-- A concrete funtofem.in content for the C4 witness. -/
def linesC4 : List String :=
  ["area,shape,100.0\n", "\n", "thick1,struct,rib,0.01\n"]

/-- Witness for `readInput_line_behavior`: the three-line funtofem.in from
`linesC4`, and the unknown-type line "a,b,c" evaluated once with the stale
locals bound (appending a record with the stale caps group and value) and once
with them unbound (NameError). -/
theorem readInput_line_behavior_witness :
    readInput pfC4 (some linesC4) = (some (linesC4.filterMap (specRecord pfC4)), none)
    ∧ readLine pfC4 { records := [], capsGroup := some "rib", value := some 0.01 }
          "a,b,c\n"
        = .ok { records := []
                  ++ [tempDict ((splitComma "a,b,c\n").getD 0 "") "b" "rib" 0.01],
                capsGroup := some "rib", value := some 0.01 }
    ∧ readLine pfC4 { records := [], capsGroup := none, value := none } "a,b,c\n"
        = .error "NameError" := by
  apply readInput_line_behavior pfC4 linesC4
    { records := [], capsGroup := some "rib", value := some 0.01 }
    "a,b,c\n" "rib" 0.01 "b"
  all_goals decide

/-- **C4 (counterexample).** The line "a,b,c" has length over 1, but its
second field is neither "shape" nor "struct": `readInput` appends no record for
it at all — the locals `capsGroup` and `value` are unbound, so building the
record raises `NameError` — contradicting the claim that every line of length
over 1 appends exactly one record. -/
theorem readInput_nonshape_line_fails :
    ("a,b,c\n".length > 1)
    ∧ readInput pfC4 (some ["a,b,c\n"]) = (some [], some "NameError") :=
  ⟨by decide, rfl⟩

/-- optimization.py lines 1001-1020: the DVdict assembled by the nacaMulti
driver script (ten shape variables, three thickness variables paired with the
caps groups rib, spar, OML). -/
def nacaMultiDVdict : List PyDict :=
  (["area", "aspect", "camb0", "cambf", "ctwist",
    "dihedral", "lesweep", "taper", "tc0", "tcf"].map
    (fun dvname => [("name", PyVal.str dvname), ("type", PyVal.str "shape"),
                    ("value", PyVal.num 0.0), ("capsGroup", PyVal.str "")]))
  ++ ((["thick1", "thick2", "thick3"].zip ["rib", "spar", "OML"]).map
    (fun p => [("name", PyVal.str p.1), ("type", PyVal.str "thick"),
               ("value", PyVal.num 0.1), ("capsGroup", PyVal.str p.2)]))

theorem readLine_records_shape (pf : String → Option ℚ) (st : ReadState)
    (line : String) (st' : ReadState) (h : readLine pf st line = .ok st') :
    st'.records = st.records
    ∨ ∃ n t c v, st'.records = st.records ++ [tempDict n t c v] := by
  by_cases hlen : line.length > 1
  · simp only [readLine, if_pos hlen] at h
    repeat' split at h
    all_goals
      first
        | (cases h; exact Or.inr ⟨_, _, _, _, rfl⟩)
        | (cases h)
  · simp only [readLine, if_neg hlen] at h
    cases h
    exact Or.inl rfl

theorem readLines_records_keys (pf : String → Option ℚ) :
    ∀ (lines : List String) (st : ReadState),
      (∀ r ∈ st.records, dictKeys r = ["name", "type", "capsGroup", "value"]) →
      ∀ r ∈ (readLines pf lines st).1.records,
        dictKeys r = ["name", "type", "capsGroup", "value"] := by
  intro lines
  induction lines with
  | nil => intro st h; simpa [readLines] using h
  | cons l rest ih =>
    intro st h
    cases hrl : readLine pf st l with
    | error e => rw [readLines, hrl]; exact h
    | ok st' =>
      rw [readLines, hrl]
      refine ih st' ?_
      rcases readLine_records_shape pf st l st' hrl with hrec | ⟨n, t, c, v, hrec⟩
      · rw [hrec]; exact h
      · rw [hrec]
        intro r hr
        rcases List.mem_append.mp hr with hr | hr
        · exact h r hr
        · rcases List.mem_singleton.mp hr with rfl
          rfl

/-- **C6 (amended).** Every design-variable record held by the orchestration —
every record `readInput` ever appends to `self.DVdict`, and every record of the
nacaMulti driver-script DVdict — carries exactly the variable's name, its kind
("shape", "struct" or "thick"), its caps-group association and its numeric
value: the key set is always name, type, capsGroup, value.  Bounds are not part
of the record (see `DVdict_record_has_no_bounds`); they appear only in derived
tool-facing dictionaries such as `makeThicknessDV`. -/
theorem DVdict_record_keys (pf : String → Option ℚ) (lines : List String)
    (recs : List PyDict) (err : Option String) (r : PyDict)
    (h : readInput pf (some lines) = (some recs, err)) (hr : r ∈ recs) :
    dictKeys r = ["name", "type", "capsGroup", "value"]
    ∧ ∀ r' ∈ nacaMultiDVdict,
        (dictKeys r').Perm ["name", "type", "capsGroup", "value"] := by
  constructor
  · have hkeys := readLines_records_keys pf lines
      { records := [], capsGroup := none, value := none } (by simp)
    have hrecs : recs = (readLines pf lines
        { records := [], capsGroup := none, value := none }).1.records := by
      unfold readInput at h
      simp only [Prod.mk.injEq, Option.some.injEq] at h
      exact h.1.symm
    exact hkeys r (hrecs ▸ hr)
  · decide

/-- Concrete Python `float` for the C6 theorems. -/
def pfC6 : String → Option ℚ :=
  fun s => if s == "0.5\n" then some 0.5 else none

/-- Witness for `DVdict_record_keys`: the record read from "a,shape,0.5". -/
theorem DVdict_record_keys_witness :
    dictKeys (tempDict "a" "shape" "" 0.5) = ["name", "type", "capsGroup", "value"]
    ∧ ∀ r' ∈ nacaMultiDVdict,
        (dictKeys r').Perm ["name", "type", "capsGroup", "value"] :=
  DVdict_record_keys pfC6 ["a,shape,0.5\n"] [tempDict "a" "shape" "" 0.5] none
    (tempDict "a" "shape" "" 0.5) rfl (List.mem_singleton.mpr rfl)

/-- **C6 (counterexample).** The claim says every record carries the variable's
bounds; but the record `readInput` builds for the line "a,shape,0.5" has
exactly the keys name, type, capsGroup, value — no lower or upper bound of any
kind — and the same holds for every record of the nacaMulti driver DVdict.
Bounds live only in the derived tacsAim dictionaries (`makeThicknessDV`). -/
theorem DVdict_record_has_no_bounds :
    readInput pfC6 (some ["a,shape,0.5\n"])
      = (some [tempDict "a" "shape" "" 0.5], none)
    ∧ dictKeys (tempDict "a" "shape" "" 0.5) = ["name", "type", "capsGroup", "value"]
    ∧ dictGet (tempDict "a" "shape" "" 0.5) "lowerBound" = none
    ∧ dictGet (tempDict "a" "shape" "" 0.5) "upperBound" = none
    ∧ ∀ r ∈ nacaMultiDVdict,
        dictGet r "lowerBound" = none ∧ dictGet r "upperBound" = none := by
  refine ⟨rfl, rfl, rfl, rfl, by decide⟩

/-- runF2F.py lines 783-792 under exception semantics: the three stages of
`runF2F` run in sequence and, since no method of the class installs an
exception handler, any exception raised by a stage propagates uncaught and
aborts the remaining stages.  The stage outcomes are opaque parameters (they
depend on the external tools). -/
def runF2FExcept (forward adjoint write : Except String Unit) :
    Except String Unit := do
  forward
  adjoint
  write

/-- **C8.** No recovery path exists: an exception from an underlying operation
propagates to the caller.  In particular `readInput` on a missing
funtofem.in raises (`FileNotFoundError` from `open`) with `self.DVdict` still
`None` on the root process — no record was appended — and an exception in any
stage of `runF2F` aborts the remaining stages and becomes the overall
outcome. -/
theorem readInput_raises_uncaught (pf : String → Option ℚ) :
    readInput pf none = (none, some "FileNotFoundError")
    ∧ (∀ (e : String) (adjoint write : Except String Unit),
        runF2FExcept (.error e) adjoint write = .error e)
    ∧ (∀ (e : String) (write : Except String Unit),
        runF2FExcept (.ok ()) (.error e) write = .error e)
    ∧ (∀ e : String, runF2FExcept (.ok ()) (.ok ()) (.error e) = .error e) :=
  ⟨rfl, fun _ _ _ => rfl, fun _ _ => rfl, fun _ => rfl⟩

/-! ## writeOutput (runF2F.py lines 794-844) -/

/-- A numpy 2-d float array with shape information; reading out of bounds is
an `IndexError`. -/
structure NpMatrix where
  rows : ℕ
  cols : ℕ
  entry : ℕ → ℕ → ℚ

/-- `A[i, j]` with numpy bounds checking (negative indices never arise in the
embedded code). -/
def NpMatrix.read (A : NpMatrix) (i j : ℕ) : Option ℚ :=
  if i < A.rows ∧ j < A.cols then some (A.entry i j) else none

/-- One structured line of funtofem.out, abstracting the comma-separated text:
the header count line, a `func,<name>,<value>` line, a `grad,shape,...` line
and a `grad,struct,...` line. -/
inductive OutLine where
  | counts (nfunc nshape nstruct : ℕ)
  | func (name : String) (value : ℚ)
  | gradShape (derivs : List ℚ)
  | gradStruct (derivs : List ℚ)
  deriving DecidableEq, Repr

/-- runF2F.py lines 816-842, the `for func in self.functions` loop of
`writeOutput`.  For each function: `name = self.functionNames[ct]`,
`value = self.functions[ct].value.real`, then `ct += 1`, then the
`func` line, then a `grad,shape` line reading `self.shapeGrad[ct, ishape]`
for `ishape in range(nshape)` — note: with the already incremented `ct` —
then a `grad,struct` line reading `self.structGrad[ct, istruct]` likewise. -/
def writeFuncLines (functionNames : List String) (functions : List ℚ)
    (shapeGrad structGrad : NpMatrix) (nshape nstruct : ℕ) :
    List ℚ → ℕ → Except String (List OutLine)
  | [], _ => .ok []
  | _func :: rest, ct =>
    match functionNames[ct]? with
    | none => .error "IndexError"
    | some name =>
      match functions[ct]? with
      | none => .error "IndexError"
      | some value =>
        match (List.range nshape).mapM (fun ishape => shapeGrad.read (ct + 1) ishape) with
        | none => .error "IndexError"
        | some shapeDerivs =>
          match (List.range nstruct).mapM
              (fun istruct => structGrad.read (ct + 1) istruct) with
          | none => .error "IndexError"
          | some structDerivs =>
            match writeFuncLines functionNames functions shapeGrad structGrad
                nshape nstruct rest (ct + 1) with
            | .error e => .error e
            | .ok ls =>
              .ok (.func name value :: .gradShape shapeDerivs
                    :: .gradStruct structDerivs :: ls)

/-- runF2F.py lines 794-844, `writeOutput` on the root process: count the shape
and struct design variables, write the `nfunc,nshape,nstruct` header, then the
per-function records. -/
def writeOutput (DVlist : List DVRecord) (nfunc : ℕ) (functionNames : List String)
    (functions : List ℚ) (shapeGrad structGrad : NpMatrix) :
    Except String (List OutLine) :=
  let nshape := (DVlist.filter (fun DV => DV.dvType == "shape")).length
  let nstruct := (DVlist.filter (fun DV => DV.dvType == "struct")).length
  match writeFuncLines functionNames functions shapeGrad structGrad
      nshape nstruct functions 0 with
  | .error e => .error e
  | .ok ls => .ok (.counts nfunc nshape nstruct :: ls)

/-- **C2 (code bug).** The claim says the `grad,shape` and `grad,struct` lines
following `func,<name>,<value>` for function `i` hold row `i` of the gradient
arrays.  The code increments `ct` before reading the rows, so it reads row
`i + 1`.  First conjunct: in the program's own configuration — one function
(`ksfailure`), gradient arrays with `nfunc = 1` rows — `writeOutput` reads
`shapeGrad[1, 0]`, out of bounds, and raises `IndexError`; it can never
complete when a shape DV exists.  Second conjunct: with two functions and
hypothetical three-row arrays, the `grad,shape` record emitted for function 0
is row 1 (value 1 of `fun i _ => i`-indexed rows) and for function 1 is
row 2 — never row `i`. -/
theorem writeOutput_reads_shifted_row :
    writeOutput [⟨"area", "shape", "", 0⟩] 1 ["ksfailure"] [2]
        ⟨1, 1, fun _ _ => 3⟩ ⟨1, 3, fun _ _ => 0⟩ = .error "IndexError"
    ∧ writeOutput [⟨"area", "shape", "", 0⟩] 2 ["f0", "f1"] [20, 30]
        ⟨3, 1, fun i _ => if i = 1 then 11 else if i = 2 then 12 else 10⟩
        ⟨3, 3, fun _ _ => 0⟩
      = .ok [.counts 2 1 0,
             .func "f0" 20, .gradShape [11], .gradStruct [],
             .func "f1" 30, .gradShape [12], .gradStruct []] :=
  ⟨rfl, rfl⟩

/-! ## Pipeline sequencing (runF2F.py lines 560-654 and 783-792) -/

/-- The eight pipeline stages of one `runF2F` call. -/
inductive Stage where
  | designUpdate
  | structMeshBuild
  | fluidMeshBuild
  | f2fInit
  | forwardSolve
  | adjointSolve
  | structGradAccum
  | shapeGradAccum
  | outputWrite
  deriving BEq, DecidableEq, Repr

/-- runF2F.py lines 560-593, `forwardAnalysis`: `updateDesign`,
`buildStructureMesh`, `buildFluidMesh`, `initF2F`, `driver.solve_forward`,
in source order. -/
def forwardAnalysisStages : List Stage :=
  [.designUpdate, .structMeshBuild, .fluidMeshBuild, .f2fInit, .forwardSolve]

/-- runF2F.py lines 595-654, `adjointAnalysis`: `driver.solve_adjoint`, then
the structural-gradient accumulation loop, then `computeShapeDerivatives`. -/
def adjointAnalysisStages : List Stage :=
  [.adjointSolve, .structGradAccum, .shapeGradAccum]

/-- runF2F.py lines 783-792, `runF2F`: forward analysis, adjoint analysis,
output writing. -/
def runF2FStages : List Stage :=
  forwardAnalysisStages ++ adjointAnalysisStages ++ [.outputWrite]

/-- **C3.** `runF2F` executes the stages in exactly this order — design
update, structure mesh build, fluid mesh build, FUNtoFEM initialization,
forward solve (all inside the forward analysis), then adjoint solve and
gradient accumulation (the adjoint analysis), then the output write — and
each stage occurs exactly once, so no stage is skipped, repeated, or run
before its predecessor completes. -/
theorem runF2F_stage_order :
    runF2FStages =
      [.designUpdate, .structMeshBuild, .fluidMeshBuild, .f2fInit, .forwardSolve,
       .adjointSolve, .structGradAccum, .shapeGradAccum, .outputWrite]
    ∧ ∀ s : Stage, runF2FStages.count s = 1 := by
  refine ⟨rfl, ?_⟩
  intro s
  cases s <;> rfl

/-! ## Root-process gating of external-tool calls (C7) -/

/-- A call into an external tool: pyCAPS problem construction, AIM creation
and configuration, AIM pre/post analysis, mesh-file copying, the pointwise
batch run, mesh linking, and sensitivity-file writing. -/
inductive ExtOp where
  | createProblem (which : String)
  | createAim (which : String)
  | configure (which : String)
  | preAnalysis (aim : String)
  | postAnalysis (aim : String)
  | copyFile (what : String)
  | systemCall (what : String)
  | linkMesh (style : String)
  | writeSensFile (which : String)
  deriving DecidableEq, Repr

/-- runF2F.py lines 250-304, `initializeAIMs`: everything is inside
`if (self.comm.Get_rank() == 0)`.  On the root process the two pyCAPS problems
are built, the AIMs created (which ones depends on the mesh style), and the
mesh/solver settings applied. -/
def initializeAIMsOps (rank : ℕ) (meshStyle : String) : List ExtOp :=
  if rank = 0 then
    [.createProblem "struct", .createProblem "fluid",
     .createAim "egadsTessAIM", .createAim "tacsAIM"]
    ++ (if meshStyle == "pointwise" then [.createAim "pointwiseAIM"]
        else if meshStyle == "tetgen" then
          [.createAim "egadsTessAIM-fluid", .createAim "tetgenAIM"]
        else [])
    ++ [.createAim "fun3dAIM", .configure "structureMeshSettings",
        .configure "fluidMeshSettings", .configure "fun3dSettings"]
  else []

/-- runF2F.py lines 764-780, `runPointwise` (called only from the root-gated
part of `buildFluidMesh`). -/
def runPointwiseOps : List ExtOp :=
  [.preAnalysis "pointwiseAim", .systemCall "pointwise -b GeomToMesh.glf",
   .postAnalysis "pointwiseAim"]

/-- runF2F.py lines 712-722, `buildStructureMesh`: the tacsAim preAnalysis and
the .bdf/.dat copies run only under `if (self.comm.Get_rank() == 0)`. -/
def buildStructureMeshOps (rank : ℕ) : List ExtOp :=
  if rank = 0 then
    [.preAnalysis "tacsAim", .copyFile ".bdf", .copyFile ".dat"]
  else []

/-- runF2F.py lines 724-762, `buildFluidMesh`: pointwise (for that mesh
style), the fun3d mesh link and preAnalysis, and the mesh-file copies run only
under `if (self.comm.Get_rank() == 0)`. -/
def buildFluidMeshOps (rank : ℕ) (meshStyle : String) : List ExtOp :=
  if rank = 0 then
    (if meshStyle == "pointwise" then runPointwiseOps else [])
    ++ [.linkMesh meshStyle, .preAnalysis "fun3dAim", .copyFile "ugrid"]
    ++ (if meshStyle == "tetgen" then [.copyFile "tetgen.mapbc"] else [])
  else []

/-- runF2F.py lines 846-859 with 873-923 and 926-986: `computeShapeDerivatives`
runs the sensitivity-file writing and the tacsAim/fun3dAim postAnalysis calls
(inside `applyStructMeshSens` / `applyAeroMeshSens`) only under
`if (self.comm.Get_rank() == 0)`. -/
def computeShapeDerivativesOps (rank : ℕ) : List ExtOp :=
  if rank = 0 then
    [.writeSensFile "struct", .postAnalysis "tacsAim",
     .writeSensFile "aero", .postAnalysis "fun3dAim"]
  else []

/-- **C7.** Every external-tool call of `initializeAIMs`,
`buildStructureMesh`, `buildFluidMesh` and `computeShapeDerivatives` executes
only on the process of communicator rank 0: on every process of nonzero rank
the operation lists are empty (the work is skipped entirely), while on rank 0
they are nonempty. -/
theorem external_ops_root_only (rank : ℕ) (meshStyle : String) (h : rank ≠ 0) :
    initializeAIMsOps rank meshStyle = []
    ∧ buildStructureMeshOps rank = []
    ∧ buildFluidMeshOps rank meshStyle = []
    ∧ computeShapeDerivativesOps rank = []
    ∧ initializeAIMsOps 0 meshStyle ≠ []
    ∧ buildStructureMeshOps 0 ≠ []
    ∧ buildFluidMeshOps 0 meshStyle ≠ []
    ∧ computeShapeDerivativesOps 0 ≠ [] := by
  refine ⟨?_, ?_, ?_, ?_, ?_, ?_, ?_, ?_⟩
  · simp [initializeAIMsOps, h]
  · simp [buildStructureMeshOps, h]
  · simp [buildFluidMeshOps, h]
  · simp [computeShapeDerivativesOps, h]
  · intro hempty
    have := congrArg List.length hempty
    simp [initializeAIMsOps, List.length_append] at this
  · intro hempty
    have := congrArg List.length hempty
    simp [buildStructureMeshOps] at this
  · intro hempty
    have := congrArg List.length hempty
    simp [buildFluidMeshOps, List.length_append] at this
  · intro hempty
    have := congrArg List.length hempty
    simp [computeShapeDerivativesOps] at this

/-- Witness for `external_ops_root_only`: rank 1 with the pointwise mesh
style. -/
theorem external_ops_root_only_witness :
    initializeAIMsOps 1 "pointwise" = []
    ∧ buildStructureMeshOps 1 = []
    ∧ buildFluidMeshOps 1 "pointwise" = []
    ∧ computeShapeDerivativesOps 1 = []
    ∧ initializeAIMsOps 0 "pointwise" ≠ []
    ∧ buildStructureMeshOps 0 ≠ []
    ∧ buildFluidMeshOps 0 "pointwise" ≠ []
    ∧ computeShapeDerivativesOps 0 ≠ [] :=
  external_ops_root_only 1 "pointwise" (by decide)

/-! ## updateDesign (optimization.py lines 659-712) -/

/-- The three tacsAim input dictionaries `updateDesign` manipulates:
`self.tacsAim.input.Property`, `.Design_Variable_Relation`,
`.Design_Variable`. -/
structure TacsAimInput where
  property : List (String × PyDict)
  designVariableRelation : List (String × PyDict)
  designVariable : List (String × PyDict)
  deriving DecidableEq, Repr

/-- optimization.py line 702, `DVdict[dvname]["groupName"]`: the groupName
stored in the `Design_Variable` entry of `name`. -/
def groupNameOf (dv : List (String × PyDict)) (name : String) : Option PyVal :=
  (dictGet dv name).bind (fun entry => dictGet entry "groupName")

/-- The names of the thickness ("thick") design variables, in order. -/
def thickNames (DVlist : List DVRecord) : List String :=
  (DVlist.filter (fun DV => DV.dvType == "thick")).map (fun DV => DV.name)

/-- The groupName values the thickness design variables resolve to in a
`Design_Variable` dictionary. -/
def thickGroupVals (dv : List (String × PyDict)) (DVlist : List DVRecord) :
    List (Option PyVal) :=
  (DVlist.filter (fun DV => DV.dvType == "thick")).map
    (fun DV => groupNameOf dv DV.name)

/-- optimization.py lines 661-678, the first loop of `updateDesign`: write the
new optimizer values `x["struct"]`/`x["shape"]` into the `value` fields of
`self.DVdict`, indexing each array by its own counter. -/
def updateDVValues (thickDVs shapeDVs : List ℚ) :
    List DVRecord → ℕ → ℕ → Except String (List DVRecord)
  | [], _, _ => .ok []
  | DV :: rest, thickCt, shapeCt =>
    if DV.dvType == "thick" then
      match thickDVs[thickCt]? with
      | none => .error "IndexError"
      | some v =>
        (updateDVValues thickDVs shapeDVs rest (thickCt + 1) shapeCt).map
          (fun l => { DV with value := v } :: l)
    else if DV.dvType == "shape" then
      match shapeDVs[shapeCt]? with
      | none => .error "IndexError"
      | some v =>
        (updateDVValues thickDVs shapeDVs rest thickCt (shapeCt + 1)).map
          (fun l => { DV with value := v } :: l)
    else
      (updateDVValues thickDVs shapeDVs rest thickCt shapeCt).map
        (fun l => DV :: l)

/-- optimization.py lines 683-712, the root-process section of `updateDesign`:
for a shape variable, set the `despmtr` of both caps problems (recorded in the
geometry-update log); for a thickness variable, replace its
`Design_Variable_Relation` entry by `makeThicknessDVR(dvname)`, read
`capsGroup = DVdict[dvname]["groupName"]`, replace its `Design_Variable` entry
by `makeThicknessDV(capsGroup, value)`, and set
`propDict[capsGroup]["membraneThickness"] = value`.  A missing dictionary key
is a `KeyError`.  (The loop also collects the unused local `thickVec`, which
is dropped here.) -/
def updateDesignLoop :
    List DVRecord → TacsAimInput → List (String × ℚ) →
    Except String (TacsAimInput × List (String × ℚ))
  | [], aim, geom => .ok (aim, geom)
  | DV :: rest, aim, geom =>
    if DV.dvType == "shape" then
      updateDesignLoop rest aim (geom ++ [(DV.name, DV.value)])
    else if DV.dvType == "thick" then
      let DVRdict := dictSet aim.designVariableRelation DV.name (makeThicknessDVR DV.name)
      match dictGet aim.designVariable DV.name with
      | none => .error "KeyError"
      | some entry =>
        match dictGet entry "groupName" with
        | none => .error "KeyError"
        | some gv =>
          let DVdict := dictSet aim.designVariable DV.name (makeThicknessDV gv DV.value)
          match gv with
          | .num _ => .error "KeyError"
          | .str capsGroup =>
            match dictGet aim.property capsGroup with
            | none => .error "KeyError"
            | some propEntry =>
              updateDesignLoop rest
                { property := dictSet aim.property capsGroup
                    (dictSet propEntry "membraneThickness" (.num DV.value)),
                  designVariableRelation := DVRdict,
                  designVariable := DVdict } geom
    else
      updateDesignLoop rest aim geom

/-- optimization.py lines 659-712, `updateDesign` on the root process: first
the value-update loop, then the dictionary/geometry updates. -/
def updateDesign (x_struct x_shape : List ℚ) (DVlist : List DVRecord)
    (aim : TacsAimInput) :
    Except String (List DVRecord × TacsAimInput × List (String × ℚ)) :=
  match updateDVValues x_struct x_shape DVlist 0 0 with
  | .error e => .error e
  | .ok DVlist' =>
    match updateDesignLoop DVlist' aim [] with
    | .error e => .error e
    | .ok res => .ok (DVlist', res.1, res.2)

theorem thickNames_cons_thick (DV : DVRecord) (rest : List DVRecord)
    (h : DV.dvType = "thick") :
    thickNames (DV :: rest) = DV.name :: thickNames rest := by
  simp [thickNames, List.filter, h]

theorem thickNames_cons_of_ne (DV : DVRecord) (rest : List DVRecord)
    (h : DV.dvType ≠ "thick") :
    thickNames (DV :: rest) = thickNames rest := by
  have hb : (DV.dvType == "thick") = false := by simp [h]
  simp [thickNames, List.filter, hb]

theorem thickGroupVals_cons_thick (dv : List (String × PyDict)) (DV : DVRecord)
    (rest : List DVRecord) (h : DV.dvType = "thick") :
    thickGroupVals dv (DV :: rest)
      = groupNameOf dv DV.name :: thickGroupVals dv rest := by
  simp [thickGroupVals, List.filter, h]

theorem thickGroupVals_cons_of_ne (dv : List (String × PyDict)) (DV : DVRecord)
    (rest : List DVRecord) (h : DV.dvType ≠ "thick") :
    thickGroupVals dv (DV :: rest) = thickGroupVals dv rest := by
  have hb : (DV.dvType == "thick") = false := by simp [h]
  simp [thickGroupVals, List.filter, hb]

theorem thickGroupVals_congr (dv dv' : List (String × PyDict))
    (DVlist : List DVRecord) (h : ∀ n, groupNameOf dv' n = groupNameOf dv n) :
    thickGroupVals dv' DVlist = thickGroupVals dv DVlist := by
  unfold thickGroupVals
  induction DVlist with
  | nil => rfl
  | cons DV rest ih =>
    by_cases hty : DV.dvType == "thick"
    · simp [List.filter, hty, ih, h DV.name]
    · simp [List.filter, hty, ih]

theorem groupVal_mem_thickGroupVals (dv : List (String × PyDict))
    (DVlist : List DVRecord) (DV : DVRecord) (h1 : DV ∈ DVlist)
    (h2 : DV.dvType = "thick") :
    groupNameOf dv DV.name ∈ thickGroupVals dv DVlist := by
  unfold thickGroupVals
  exact List.mem_map_of_mem _ (List.mem_filter.mpr ⟨h1, by simp [h2]⟩)

/-- Updating the `Design_Variable` entry of a thickness variable preserves
every entry's groupName: the new entry `makeThicknessDV gv v` carries exactly
the groupName `gv` that was read from the old entry. -/
theorem groupNameOf_set_thickDV (dv : List (String × PyDict)) (name : String)
    (entry : PyDict) (gv : PyVal) (v : ℚ)
    (he : dictGet dv name = some entry) (hg : dictGet entry "groupName" = some gv) :
    ∀ m, groupNameOf (dictSet dv name (makeThicknessDV gv v)) m = groupNameOf dv m := by
  intro m
  by_cases hm : m = name
  · subst hm
    unfold groupNameOf
    rw [dictGet_dictSet_self, he]
    simp [makeThicknessDV, dictGet, hg]
  · unfold groupNameOf
    rw [dictGet_dictSet_ne _ _ _ _ hm]

theorem updateDesignLoop_cons_shape (DV : DVRecord) (rest : List DVRecord)
    (aim : TacsAimInput) (geom : List (String × ℚ))
    (out : TacsAimInput × List (String × ℚ)) (hty : DV.dvType = "shape")
    (h : updateDesignLoop (DV :: rest) aim geom = .ok out) :
    updateDesignLoop rest aim (geom ++ [(DV.name, DV.value)]) = .ok out := by
  have hb : (DV.dvType == "shape") = true := by simp [hty]
  simpa only [updateDesignLoop, hb, if_true] using h

theorem updateDesignLoop_cons_other (DV : DVRecord) (rest : List DVRecord)
    (aim : TacsAimInput) (geom : List (String × ℚ))
    (out : TacsAimInput × List (String × ℚ))
    (hsh : DV.dvType ≠ "shape") (hth : DV.dvType ≠ "thick")
    (h : updateDesignLoop (DV :: rest) aim geom = .ok out) :
    updateDesignLoop rest aim geom = .ok out := by
  have hb1 : (DV.dvType == "shape") = false := by simp [hsh]
  have hb2 : (DV.dvType == "thick") = false := by simp [hth]
  simpa only [updateDesignLoop, hb1, hb2, Bool.false_eq_true, if_false] using h

theorem updateDesignLoop_cons_thick (DV : DVRecord) (rest : List DVRecord)
    (aim : TacsAimInput) (geom : List (String × ℚ))
    (out : TacsAimInput × List (String × ℚ))
    (hsh : DV.dvType ≠ "shape") (hth : DV.dvType = "thick")
    (h : updateDesignLoop (DV :: rest) aim geom = .ok out) :
    ∃ entry capsGroup propEntry,
      dictGet aim.designVariable DV.name = some entry
      ∧ dictGet entry "groupName" = some (PyVal.str capsGroup)
      ∧ dictGet aim.property capsGroup = some propEntry
      ∧ updateDesignLoop rest
          { property := dictSet aim.property capsGroup
              (dictSet propEntry "membraneThickness" (.num DV.value)),
            designVariableRelation :=
              dictSet aim.designVariableRelation DV.name (makeThicknessDVR DV.name),
            designVariable :=
              dictSet aim.designVariable DV.name
                (makeThicknessDV (PyVal.str capsGroup) DV.value) }
          geom = .ok out := by
  have hb1 : (DV.dvType == "shape") = false := by simp [hsh]
  have hb2 : (DV.dvType == "thick") = true := by simp [hth]
  simp only [updateDesignLoop, hb1, Bool.false_eq_true, if_false, hb2, if_true] at h
  cases he : dictGet aim.designVariable DV.name with
  | none => simp only [he] at h; cases h
  | some entry =>
    simp only [he] at h
    cases hg : dictGet entry "groupName" with
    | none => simp only [hg] at h; cases h
    | some gv =>
      simp only [hg] at h
      cases gv with
      | num q => cases h
      | str capsGroup =>
        cases hp : dictGet aim.property capsGroup with
        | none => simp only [hp] at h; cases h
        | some propEntry =>
          simp only [hp] at h
          exact ⟨entry, capsGroup, propEntry, rfl, hg, hp, h⟩

/-- `updateDesignLoop` preserves the groupName of every `Design_Variable`
entry: a thickness update rewrites the entry with the very groupName it read
from it. -/
theorem updateDesignLoop_groupNames :
    ∀ (DVlist : List DVRecord) (aim : TacsAimInput) (geom : List (String × ℚ))
      (out : TacsAimInput × List (String × ℚ)),
      updateDesignLoop DVlist aim geom = .ok out →
      ∀ n, groupNameOf out.1.designVariable n = groupNameOf aim.designVariable n := by
  intro DVlist
  induction DVlist with
  | nil => intro aim geom out h n; cases h; rfl
  | cons DV rest ih =>
    intro aim geom out h n
    by_cases hsh : DV.dvType = "shape"
    · exact ih aim _ out (updateDesignLoop_cons_shape DV rest aim geom out hsh h) n
    · by_cases hth : DV.dvType = "thick"
      · obtain ⟨entry, capsGroup, propEntry, he, hg, hp, h'⟩ :=
          updateDesignLoop_cons_thick DV rest aim geom out hsh hth h
        rw [ih _ _ _ h' n]
        exact groupNameOf_set_thickDV aim.designVariable DV.name entry
          (PyVal.str capsGroup) DV.value he hg n
      · exact ih aim geom out
          (updateDesignLoop_cons_other DV rest aim geom out hsh hth h) n

/-- `updateDesignLoop` leaves the `Design_Variable_Relation` entries of all
non-thickness keys unchanged. -/
theorem updateDesignLoop_dvr_frame :
    ∀ (DVlist : List DVRecord) (aim : TacsAimInput) (geom : List (String × ℚ))
      (out : TacsAimInput × List (String × ℚ)),
      updateDesignLoop DVlist aim geom = .ok out →
      ∀ k, k ∉ thickNames DVlist →
        dictGet out.1.designVariableRelation k
          = dictGet aim.designVariableRelation k := by
  intro DVlist
  induction DVlist with
  | nil => intro aim geom out h k _; cases h; rfl
  | cons DV rest ih =>
    intro aim geom out h k hk
    by_cases hsh : DV.dvType = "shape"
    · have hk' : k ∉ thickNames rest := by
        rwa [thickNames_cons_of_ne DV rest (by rw [hsh]; decide)] at hk
      exact ih _ _ _ (updateDesignLoop_cons_shape DV rest aim geom out hsh h) k hk'
    · by_cases hth : DV.dvType = "thick"
      · rw [thickNames_cons_thick DV rest hth] at hk
        have hkname : k ≠ DV.name := fun hEq => hk (hEq ▸ List.mem_cons_self _ _)
        have hk' : k ∉ thickNames rest := fun hm => hk (List.mem_cons_of_mem _ hm)
        obtain ⟨entry, capsGroup, propEntry, he, hg, hp, h'⟩ :=
          updateDesignLoop_cons_thick DV rest aim geom out hsh hth h
        rw [ih _ _ _ h' k hk']
        exact dictGet_dictSet_ne _ _ _ _ hkname
      · have hk' : k ∉ thickNames rest := by
          rwa [thickNames_cons_of_ne DV rest hth] at hk
        exact ih _ _ _ (updateDesignLoop_cons_other DV rest aim geom out hsh hth h) k hk'

/-- `updateDesignLoop` leaves the `Design_Variable` entries of all
non-thickness keys unchanged. -/
theorem updateDesignLoop_dv_frame :
    ∀ (DVlist : List DVRecord) (aim : TacsAimInput) (geom : List (String × ℚ))
      (out : TacsAimInput × List (String × ℚ)),
      updateDesignLoop DVlist aim geom = .ok out →
      ∀ k, k ∉ thickNames DVlist →
        dictGet out.1.designVariable k = dictGet aim.designVariable k := by
  intro DVlist
  induction DVlist with
  | nil => intro aim geom out h k _; cases h; rfl
  | cons DV rest ih =>
    intro aim geom out h k hk
    by_cases hsh : DV.dvType = "shape"
    · have hk' : k ∉ thickNames rest := by
        rwa [thickNames_cons_of_ne DV rest (by rw [hsh]; decide)] at hk
      exact ih _ _ _ (updateDesignLoop_cons_shape DV rest aim geom out hsh h) k hk'
    · by_cases hth : DV.dvType = "thick"
      · rw [thickNames_cons_thick DV rest hth] at hk
        have hkname : k ≠ DV.name := fun hEq => hk (hEq ▸ List.mem_cons_self _ _)
        have hk' : k ∉ thickNames rest := fun hm => hk (List.mem_cons_of_mem _ hm)
        obtain ⟨entry, capsGroup, propEntry, he, hg, hp, h'⟩ :=
          updateDesignLoop_cons_thick DV rest aim geom out hsh hth h
        rw [ih _ _ _ h' k hk']
        exact dictGet_dictSet_ne _ _ _ _ hkname
      · have hk' : k ∉ thickNames rest := by
          rwa [thickNames_cons_of_ne DV rest hth] at hk
        exact ih _ _ _ (updateDesignLoop_cons_other DV rest aim geom out hsh hth h) k hk'

/-- `updateDesignLoop` leaves every `Property` entry unchanged whose key is
not the caps group of some thickness design variable. -/
theorem updateDesignLoop_prop_frame :
    ∀ (DVlist : List DVRecord) (aim : TacsAimInput) (geom : List (String × ℚ))
      (out : TacsAimInput × List (String × ℚ)),
      updateDesignLoop DVlist aim geom = .ok out →
      ∀ k, (∀ DV ∈ DVlist, DV.dvType = "thick" →
              groupNameOf aim.designVariable DV.name ≠ some (.str k)) →
        dictGet out.1.property k = dictGet aim.property k := by
  intro DVlist
  induction DVlist with
  | nil => intro aim geom out h k _; cases h; rfl
  | cons DV rest ih =>
    intro aim geom out h k hnot
    by_cases hsh : DV.dvType = "shape"
    · exact ih _ _ _ (updateDesignLoop_cons_shape DV rest aim geom out hsh h) k
        (fun DV' hm => hnot DV' (List.mem_cons_of_mem _ hm))
    · by_cases hth : DV.dvType = "thick"
      · obtain ⟨entry, capsGroup, propEntry, he, hg, hp, h'⟩ :=
          updateDesignLoop_cons_thick DV rest aim geom out hsh hth h
        have hgn : groupNameOf aim.designVariable DV.name = some (.str capsGroup) := by
          unfold groupNameOf
          rw [he]
          simpa using hg
        have hkc : k ≠ capsGroup := by
          intro hEq
          exact hnot DV (List.mem_cons_self _ _) hth (by rw [hgn, hEq])
        have hstep := groupNameOf_set_thickDV aim.designVariable DV.name entry
          (PyVal.str capsGroup) DV.value he hg
        have hcond : ∀ DV' ∈ rest, DV'.dvType = "thick" →
            groupNameOf (dictSet aim.designVariable DV.name
              (makeThicknessDV (PyVal.str capsGroup) DV.value)) DV'.name
              ≠ some (.str k) := by
          intro DV' hm hty'
          rw [hstep DV'.name]
          exact hnot DV' (List.mem_cons_of_mem _ hm) hty'
        rw [ih _ _ _ h' k hcond]
        exact dictGet_dictSet_ne _ _ _ _ hkc
      · exact ih _ _ _ (updateDesignLoop_cons_other DV rest aim geom out hsh hth h) k
          (fun DV' hm => hnot DV' (List.mem_cons_of_mem _ hm))

/-- After a successful `updateDesignLoop` with pairwise-distinct thickness
names, the `Design_Variable` entry of every thickness variable equals
`makeThicknessDV` of its old groupName and its current value: only the
value-derived fields change, the groupName is preserved verbatim. -/
theorem updateDesignLoop_thick_entry :
    ∀ (DVlist : List DVRecord) (aim : TacsAimInput) (geom : List (String × ℚ))
      (out : TacsAimInput × List (String × ℚ)),
      updateDesignLoop DVlist aim geom = .ok out →
      (thickNames DVlist).Nodup →
      ∀ DV ∈ DVlist, DV.dvType = "thick" →
        ∀ gv, groupNameOf aim.designVariable DV.name = some gv →
          dictGet out.1.designVariable DV.name
            = some (makeThicknessDV gv DV.value) := by
  intro DVlist
  induction DVlist with
  | nil => intro aim geom out h _ DV hm; cases hm
  | cons DV0 rest ih =>
    intro aim geom out h hnd DV hm hty gv hgv
    by_cases hsh : DV0.dvType = "shape"
    · have h' := updateDesignLoop_cons_shape DV0 rest aim geom out hsh h
      have hnd' : (thickNames rest).Nodup := by
        rwa [thickNames_cons_of_ne DV0 rest (by rw [hsh]; decide)] at hnd
      rcases List.mem_cons.mp hm with rfl | hm'
      · rw [hty] at hsh
        exact absurd hsh (by decide)
      · exact ih _ _ _ h' hnd' DV hm' hty gv hgv
    · by_cases hth0 : DV0.dvType = "thick"
      · obtain ⟨entry, capsGroup, propEntry, he, hg, hp, h'⟩ :=
          updateDesignLoop_cons_thick DV0 rest aim geom out hsh hth0 h
        have hstep := groupNameOf_set_thickDV aim.designVariable DV0.name entry
          (PyVal.str capsGroup) DV0.value he hg
        rw [thickNames_cons_thick DV0 rest hth0] at hnd
        have hnd1 := (List.nodup_cons.mp hnd).1
        have hnd2 := (List.nodup_cons.mp hnd).2
        rcases List.mem_cons.mp hm with rfl | hm'
        · have hgv0 : groupNameOf aim.designVariable DV.name = some (.str capsGroup) := by
            unfold groupNameOf
            rw [he]
            simpa using hg
          rw [hgv] at hgv0
          have hgveq : gv = PyVal.str capsGroup := Option.some.inj hgv0
          subst hgveq
          rw [updateDesignLoop_dv_frame rest _ geom out h' DV.name hnd1]
          exact dictGet_dictSet_self _ _ _
        · have hgv' : groupNameOf (dictSet aim.designVariable DV0.name
              (makeThicknessDV (PyVal.str capsGroup) DV0.value)) DV.name = some gv := by
            rw [hstep DV.name]
            exact hgv
          exact ih _ _ _ h' hnd2 DV hm' hty gv hgv'
      · have h' := updateDesignLoop_cons_other DV0 rest aim geom out hsh hth0 h
        have hnd' : (thickNames rest).Nodup := by
          rwa [thickNames_cons_of_ne DV0 rest hth0] at hnd
        rcases List.mem_cons.mp hm with rfl | hm'
        · exact absurd hty hth0
        · exact ih _ _ _ h' hnd' DV hm' hty gv hgv

/-- After a successful `updateDesignLoop` with pairwise-distinct thickness
caps groups, the `Property` entry of each thickness variable's caps group is
the old entry with only its membraneThickness replaced by the variable's
current value. -/
theorem updateDesignLoop_prop_entry :
    ∀ (DVlist : List DVRecord) (aim : TacsAimInput) (geom : List (String × ℚ))
      (out : TacsAimInput × List (String × ℚ)),
      updateDesignLoop DVlist aim geom = .ok out →
      (thickGroupVals aim.designVariable DVlist).Nodup →
      ∀ DV ∈ DVlist, DV.dvType = "thick" →
        ∀ s propEntry, groupNameOf aim.designVariable DV.name = some (.str s) →
          dictGet aim.property s = some propEntry →
          dictGet out.1.property s
            = some (dictSet propEntry "membraneThickness" (.num DV.value)) := by
  intro DVlist
  induction DVlist with
  | nil => intro aim geom out h _ DV hm; cases hm
  | cons DV0 rest ih =>
    intro aim geom out h hnd DV hm hty s propEntry hgv hprop
    by_cases hsh : DV0.dvType = "shape"
    · have h' := updateDesignLoop_cons_shape DV0 rest aim geom out hsh h
      have hnd' : (thickGroupVals aim.designVariable rest).Nodup := by
        rwa [thickGroupVals_cons_of_ne _ DV0 rest (by rw [hsh]; decide)] at hnd
      rcases List.mem_cons.mp hm with rfl | hm'
      · rw [hty] at hsh
        exact absurd hsh (by decide)
      · exact ih _ _ _ h' hnd' DV hm' hty s propEntry hgv hprop
    · by_cases hth0 : DV0.dvType = "thick"
      · obtain ⟨entry, capsGroup, propEntry0, he, hg, hp, h'⟩ :=
          updateDesignLoop_cons_thick DV0 rest aim geom out hsh hth0 h
        have hstep := groupNameOf_set_thickDV aim.designVariable DV0.name entry
          (PyVal.str capsGroup) DV0.value he hg
        have hgn0 : groupNameOf aim.designVariable DV0.name = some (.str capsGroup) := by
          unfold groupNameOf
          rw [he]
          simpa using hg
        rw [thickGroupVals_cons_thick _ DV0 rest hth0] at hnd
        have hnd1 := (List.nodup_cons.mp hnd).1
        have hnd2 := (List.nodup_cons.mp hnd).2
        have hndrec : (thickGroupVals (dictSet aim.designVariable DV0.name
            (makeThicknessDV (PyVal.str capsGroup) DV0.value)) rest).Nodup := by
          rw [thickGroupVals_congr _ _ rest hstep]
          exact hnd2
        rcases List.mem_cons.mp hm with rfl | hm'
        · rw [hgv] at hgn0
          have hseq : s = capsGroup := PyVal.str.inj (Option.some.inj hgn0)
          subst hseq
          rw [hprop] at hp
          have hpeq : propEntry0 = propEntry := (Option.some.inj hp).symm
          subst hpeq
          have hcond : ∀ DV' ∈ rest, DV'.dvType = "thick" →
              groupNameOf (dictSet aim.designVariable DV.name
                (makeThicknessDV (PyVal.str s) DV.value)) DV'.name
                ≠ some (.str s) := by
            intro DV' hm' hty' hEq
            apply hnd1
            rw [hstep DV'.name] at hEq
            rw [hgv, ← hEq]
            exact groupVal_mem_thickGroupVals _ rest DV' hm' hty'
          rw [updateDesignLoop_prop_frame rest _ geom out h' s hcond]
          exact dictGet_dictSet_self _ _ _
        · have hsc : s ≠ capsGroup := by
            intro hEq
            apply hnd1
            rw [hgn0, ← hEq, ← hgv]
            exact groupVal_mem_thickGroupVals _ rest DV hm' hty
          have hgv' : groupNameOf (dictSet aim.designVariable DV0.name
              (makeThicknessDV (PyVal.str capsGroup) DV0.value)) DV.name
              = some (.str s) := by
            rw [hstep DV.name]
            exact hgv
          have hprop' : dictGet (dictSet aim.property capsGroup
              (dictSet propEntry0 "membraneThickness" (.num DV0.value))) s
              = some propEntry := by
            rw [dictGet_dictSet_ne _ _ _ _ hsc]
            exact hprop
          exact ih _ _ _ h' hndrec DV hm' hty s propEntry hgv' hprop'
      · have h' := updateDesignLoop_cons_other DV0 rest aim geom out hsh hth0 h
        have hnd' : (thickGroupVals aim.designVariable rest).Nodup := by
          rwa [thickGroupVals_cons_of_ne _ DV0 rest hth0] at hnd
        rcases List.mem_cons.mp hm with rfl | hm'
        · exact absurd hty hth0
        · exact ih _ _ _ h' hnd' DV hm' hty s propEntry hgv hprop

/-- **C10.** For every thickness design variable processed by a successful
`updateDesign` (with distinct thickness names and distinct thickness caps
groups, as in the driver script): the groupName of its tacsAim
`Design_Variable` entry after the update equals the groupName it had before
(conclusion 1, for every key); its new entry is exactly `makeThicknessDV` of
that preserved groupName and the new value, so only the value-derived fields
initialValue/lowerBound/upperBound/maxDelta change (conclusion 2); the
matching `Property` entry changes only in its membraneThickness (conclusion 3,
via `dictSet`); and the entries of shape design variables in the tacsAim
`Design_Variable`, `Design_Variable_Relation` and `Property` dictionaries are
left unchanged (conclusions 4 and 5). -/
theorem updateDesign_thickness_frame (x_struct x_shape : List ℚ)
    (DVlist DVlist' : List DVRecord) (aim aim' : TacsAimInput)
    (geom : List (String × ℚ))
    (h : updateDesign x_struct x_shape DVlist aim = .ok (DVlist', aim', geom))
    (hnames : (thickNames DVlist').Nodup)
    (hgroups : (thickGroupVals aim.designVariable DVlist').Nodup) :
    (∀ n, groupNameOf aim'.designVariable n = groupNameOf aim.designVariable n)
    ∧ (∀ DV ∈ DVlist', DV.dvType = "thick" →
        ∀ gv, groupNameOf aim.designVariable DV.name = some gv →
          dictGet aim'.designVariable DV.name = some (makeThicknessDV gv DV.value))
    ∧ (∀ DV ∈ DVlist', DV.dvType = "thick" →
        ∀ s propEntry, groupNameOf aim.designVariable DV.name = some (.str s) →
          dictGet aim.property s = some propEntry →
          dictGet aim'.property s
            = some (dictSet propEntry "membraneThickness" (.num DV.value)))
    ∧ (∀ DV ∈ DVlist', DV.dvType = "shape" → DV.name ∉ thickNames DVlist' →
        dictGet aim'.designVariable DV.name = dictGet aim.designVariable DV.name
        ∧ dictGet aim'.designVariableRelation DV.name
            = dictGet aim.designVariableRelation DV.name)
    ∧ (∀ DV ∈ DVlist', DV.dvType = "shape" →
        (∀ DV' ∈ DVlist', DV'.dvType = "thick" →
          groupNameOf aim.designVariable DV'.name ≠ some (.str DV.name)) →
        dictGet aim'.property DV.name = dictGet aim.property DV.name) := by
  have hloop : updateDesignLoop DVlist' aim [] = .ok (aim', geom) := by
    cases h1 : updateDVValues x_struct x_shape DVlist 0 0 with
    | error e =>
      simp only [updateDesign, h1] at h
      cases h
    | ok l' =>
      cases h2 : updateDesignLoop l' aim [] with
      | error e =>
        simp only [updateDesign, h1, h2] at h
        cases h
      | ok res =>
        simp only [updateDesign, h1, h2] at h
        have h3 : (l', res.1, res.2) = (DVlist', aim', geom) := Except.ok.inj h
        have hl : l' = DVlist' := congrArg Prod.fst h3
        have ha : res.1 = aim' := congrArg (fun p => p.2.1) h3
        have hg : res.2 = geom := congrArg (fun p => p.2.2) h3
        rw [← hl, h2, ← ha, ← hg]
  refine ⟨?_, ?_, ?_, ?_, ?_⟩
  · intro n
    exact updateDesignLoop_groupNames DVlist' aim [] (aim', geom) hloop n
  · intro DV hm hty gv hgv
    exact updateDesignLoop_thick_entry DVlist' aim [] (aim', geom) hloop hnames
      DV hm hty gv hgv
  · intro DV hm hty s propEntry hgv hprop
    exact updateDesignLoop_prop_entry DVlist' aim [] (aim', geom) hloop hgroups
      DV hm hty s propEntry hgv hprop
  · intro DV _ _ hnotthick
    exact ⟨updateDesignLoop_dv_frame DVlist' aim [] (aim', geom) hloop DV.name hnotthick,
      updateDesignLoop_dvr_frame DVlist' aim [] (aim', geom) hloop DV.name hnotthick⟩
  · intro DV _ _ hnot
    exact updateDesignLoop_prop_frame DVlist' aim [] (aim', geom) hloop DV.name hnot

/-- Optimizer inputs for the C10 witness: `x["struct"]` and `x["shape"]`. -/
def xStructC10 : List ℚ := [0.02, 0.03]

/-- Optimizer shape inputs for the C10 witness. -/
def xShapeC10 : List ℚ := [50]

/-- DVdict for the C10 witness: one shape variable and two thickness
variables. -/
def DVlistC10 : List DVRecord :=
  [⟨"area", "shape", "", 0⟩, ⟨"thick1", "thick", "rib", 0.01⟩,
   ⟨"thick2", "thick", "spar", 0.01⟩]

/-- tacsAim input dictionaries for the C10 witness, as `structureMeshSettings`
leaves them. -/
def aimC10 : TacsAimInput :=
  { property :=
      [("rib", [("propertyType", .str "Shell"), ("membraneThickness", .num 0.02)]),
       ("spar", [("propertyType", .str "Shell"), ("membraneThickness", .num 0.05)])],
    designVariableRelation :=
      [("thick1", makeThicknessDVR "thick1"), ("thick2", makeThicknessDVR "thick2")],
    designVariable :=
      [("area", []), ("thick1", makeThicknessDV (.str "rib") 0.01),
       ("thick2", makeThicknessDV (.str "spar") 0.01)] }

/-- The output of `updateDesign` on the C10 witness data. -/
def updateDesignResC10 : List DVRecord × TacsAimInput × List (String × ℚ) :=
  match updateDesign xStructC10 xShapeC10 DVlistC10 aimC10 with
  | .ok res => res
  | .error _ => ([], ⟨[], [], []⟩, [])

/-- Witness for `updateDesign_thickness_frame`: the concrete nacaMulti-style
configuration above. -/
theorem updateDesign_thickness_frame_witness :
    (∀ n, groupNameOf updateDesignResC10.2.1.designVariable n
        = groupNameOf aimC10.designVariable n)
    ∧ (∀ DV ∈ updateDesignResC10.1, DV.dvType = "thick" →
        ∀ gv, groupNameOf aimC10.designVariable DV.name = some gv →
          dictGet updateDesignResC10.2.1.designVariable DV.name
            = some (makeThicknessDV gv DV.value))
    ∧ (∀ DV ∈ updateDesignResC10.1, DV.dvType = "thick" →
        ∀ s propEntry, groupNameOf aimC10.designVariable DV.name = some (.str s) →
          dictGet aimC10.property s = some propEntry →
          dictGet updateDesignResC10.2.1.property s
            = some (dictSet propEntry "membraneThickness" (.num DV.value)))
    ∧ (∀ DV ∈ updateDesignResC10.1, DV.dvType = "shape" →
        DV.name ∉ thickNames updateDesignResC10.1 →
        dictGet updateDesignResC10.2.1.designVariable DV.name
            = dictGet aimC10.designVariable DV.name
        ∧ dictGet updateDesignResC10.2.1.designVariableRelation DV.name
            = dictGet aimC10.designVariableRelation DV.name)
    ∧ (∀ DV ∈ updateDesignResC10.1, DV.dvType = "shape" →
        (∀ DV' ∈ updateDesignResC10.1, DV'.dvType = "thick" →
          groupNameOf aimC10.designVariable DV'.name ≠ some (.str DV.name)) →
        dictGet updateDesignResC10.2.1.property DV.name
            = dictGet aimC10.property DV.name) :=
  updateDesign_thickness_frame xStructC10 xShapeC10 DVlistC10
    updateDesignResC10.1 aimC10 updateDesignResC10.2.1 updateDesignResC10.2.2
    rfl (by decide) (by decide)

end Caps2Fun